import Mathlib

/-!
Verification of the TVM802 pick-and-place plugin core
(`plugins/tvm802_kicad_plugin.py`).

Python strings are modelled as `List Char`; a CSV record (row) is a
`List (List Char)` of cells and a CSV file is the list of its records,
the header being the first record.  Dictionaries (`bom_ref_to_key`,
`cfeeders`) are modelled as functions into `Option`, matching `dict.get`.
`String` is used only for the schema tag returned by
`_detect_pos_format` ("kicad_pos" / "positions" / "unknown").

Case mapping is modelled with `Char.toUpper` / `Char.toLower` (ASCII);
`str.strip()` is modelled by removing the usual ASCII whitespace
characters at both ends.
-/

/-- Convert a Lean string literal to the `List Char` model of Python strings. -/
def str (s : String) : List Char := s.data

/-- Whitespace recognised by the model of Python `str.strip()`. -/
def isPySpace (c : Char) : Bool :=
  c = ' ' || c = '\t' || c = '\n' || c = '\r' || c = '\x0b' || c = '\x0c'

/-- Model of Python `str.strip()`: drop whitespace at both ends. -/
def pyStrip (s : List Char) : List Char :=
  ((s.dropWhile isPySpace).reverse.dropWhile isPySpace).reverse

/-- Model of Python `str.upper()` (ASCII case mapping). -/
def pyUpper (s : List Char) : List Char := s.map Char.toUpper

/-- Model of Python `str.lower()` (ASCII case mapping). -/
def pyLower (s : List Char) : List Char := s.map Char.toLower

/-- Model of Python `s.startswith(pre)`. -/
def startswith : List Char → List Char → Bool
  | _, [] => true
  | [], _ :: _ => false
  | a :: as, b :: bs => a = b && startswith as bs

/-- Lexicographic comparison of code-point sequences, as Python `sorted`
uses on strings. -/
def lexLe : List Char → List Char → Bool
  | [], _ => true
  | _ :: _, [] => false
  | a :: as, b :: bs => if a < b then true else if b < a then false else lexLe as bs

/-- Insert into a lexicographically sorted list (helper for `sortLe`). -/
def insortLe (a : List Char) : List (List Char) → List (List Char)
  | [] => [a]
  | b :: bs => if lexLe a b then a :: b :: bs else b :: insortLe a bs

/-- Model of Python `sorted` on a list of strings (insertion sort by `lexLe`). -/
def sortLe : List (List Char) → List (List Char)
  | [] => []
  | a :: as => insortLe a (sortLe as)

theorem mem_insortLe (x a : List Char) (l : List (List Char)) :
    x ∈ insortLe a l ↔ x = a ∨ x ∈ l := by
  induction l with
  | nil => simp [insortLe]
  | cons b bs ih =>
      by_cases h : lexLe a b = true
      · simp [insortLe, h]
      · simp only [insortLe, h, if_false, Bool.false_eq_true, List.mem_cons, ih]
        tauto

theorem mem_sortLe (x : List Char) (l : List (List Char)) :
    x ∈ sortLe l ↔ x ∈ l := by
  induction l with
  | nil => simp [sortLe]
  | cons a as ih => simp [sortLe, mem_insortLe, ih]

/-- Concatenation of the per-element lists (used to describe how the
machine-data loop accumulates its output and its catalog lookups). -/
def concatMap (f : α → List β) : List α → List β
  | [] => []
  | a :: l => f a ++ concatMap f l

theorem mem_concatMap (f : α → List β) (l : List α) (b : β) :
    b ∈ concatMap f l ↔ ∃ a ∈ l, b ∈ f a := by
  induction l with
  | nil => simp [concatMap]
  | cons a l ih => simp [concatMap, ih]

/-! ## Format detection (`_detect_pos_format`) -/

/-- One header cell normalised as in `_detect_pos_format.norm`:
strip, lowercase, then strip a UTF-8 BOM in decoded form (one char)
or raw 3-byte form. -/
def normHeaderCell (cell : List Char) : List Char :=
  let s := pyLower (pyStrip cell)
  let s := if startswith s (str "\uFEFF") then s.drop 1 else s
  if startswith s (str "\xEF\xBB\xBF") then s.drop 3 else s

/-- Model of `_detect_pos_format`: classify a placement CSV header. -/
def _detect_pos_format (header : List (List Char)) : String :=
  let hl := header.map normHeaderCell
  if 3 ≤ hl.length ∧
      (hl.getD 0 [] = str "ref" ∨ hl.getD 0 [] = str "reference") ∧
      hl.getD 1 [] = str "val" ∧
      hl.getD 2 [] = str "package" then
    "kicad_pos"
  else if 5 ≤ hl.length ∧
      (hl.getD 0 [] = str "designator" ∨ hl.getD 0 [] = str "ref") ∧
      startswith (hl.getD 1 []) (str "mid x") ∧
      startswith (hl.getD 2 []) (str "mid y") ∧
      startswith (hl.getD 3 []) (str "rotation") then
    "positions"
  else
    "unknown"

/-! ## Explanation sanitisation (`_sanitize_explanation`) -/

/-- Model of `_sanitize_explanation`: for each character in the tuple
`('"', '(', ')', '（', '）')` remove every occurrence (Python
`str.replace(ch, '')`), then strip.  `'（'`/`'）'` are the
full-width parentheses from the source. -/
def _sanitize_explanation (text : List Char) : List Char :=
  pyStrip (['"', '(', ')', '（', '）'].foldl
    (fun t ch => t.filter (fun c => c ≠ ch)) text)

/-! ## Component-key enumeration for the feeders template -/

/-- A BOM index: reference designator to component key, as `dict.get`. -/
def BomFn : Type := List Char → Option (List Char)

/-- Loop body of `gen_components_list`: the component key contributed by
one data row under the detected schema, `none` when the row is skipped. -/
def genComponentsListStep (fmt : String) (row : List (List Char)) :
    Option (List Char) :=
  if row = [] then none
  else if fmt = "kicad_pos" then
    if row.length < 3 then none else
    let ref := pyStrip (row.getD 0 [])
    if startswith (pyUpper ref) (str "FID") then none else
    let package := pyStrip (row.getD 2 [])
    let val := pyStrip (row.getD 1 [])
    some (package ++ [' '] ++ val)
  else if fmt = "positions" then
    if row.length < 1 then none else
    let ref := pyStrip (row.getD 0 [])
    if ref = [] ∨ startswith (pyUpper ref) (str "FID") then none else
    some ref
  else
    if row.length < 3 then none else
    let ref := pyStrip (row.getD 0 [])
    if startswith (pyUpper ref) (str "FID") then none else
    some ref

/-- Model of `gen_components_list`: sorted set of the keys contributed by
the data rows (Python `sorted(set(components))`). -/
def gen_components_list (file : List (List (List Char))) : List (List Char) :=
  match file with
  | [] => []
  | header :: rows =>
      sortLe ((rows.filterMap (genComponentsListStep (_detect_pos_format header))).dedup)

/-- Loop body of `gen_components_list_from_bom_and_pos`: the key added to
the component set by one data row, `none` when the row is skipped or the
resolved key is empty. -/
def genComponentsListFromBomStep (fmt : String) (bom : BomFn)
    (row : List (List Char)) : Option (List Char) :=
  if row = [] then none
  else if fmt = "kicad_pos" then
    if row.length < 3 then none else
    let ref := pyStrip (row.getD 0 [])
    if startswith (pyUpper ref) (str "FID") then none else
    let package := pyStrip (row.getD 2 [])
    let val := pyStrip (row.getD 1 [])
    let key := (bom ref).getD (package ++ [' '] ++ val)
    if key = [] then none else some key
  else if fmt = "positions" then
    if row.length < 1 then none else
    let ref := pyStrip (row.getD 0 [])
    if ref = [] ∨ startswith (pyUpper ref) (str "FID") then none else
    let key := (bom ref).getD ref
    if key = [] then none else some key
  else
    if row.length < 1 then none else
    let ref := pyStrip (row.getD 0 [])
    if ref = [] ∨ startswith (pyUpper ref) (str "FID") then none else
    let key := (bom ref).getD ref
    if key = [] then none else some key

/-- Model of `gen_components_list_from_bom_and_pos`. -/
def gen_components_list_from_bom_and_pos (file : List (List (List Char)))
    (bom : BomFn) : List (List Char) :=
  match file with
  | [] => []
  | header :: rows =>
      sortLe ((rows.filterMap
        (genComponentsListFromBomStep (_detect_pos_format header) bom)).dedup)

/-- The feeders-template component list as produced by
`TVM802FeedersTemplatePlugin.Run`: the BOM-aware enumeration when a BOM
index was read, the plain one otherwise. -/
def templateComponents (file : List (List (List Char))) (bom : Option BomFn) :
    List (List Char) :=
  match bom with
  | some b => gen_components_list_from_bom_and_pos file b
  | none => gen_components_list file

/-! ## Fiducial collection (`collect_fid_refs`) -/

/-- Loop body of `collect_fid_refs`.  In the source the three schema
branches all read and strip cell 0, so the schema tag does not change
the behaviour. -/
def collectFidStep (refs : List (List Char)) (row : List (List Char)) :
    List (List Char) :=
  if row = [] then refs
  else if row.length < 1 then refs
  else
    let ref := pyStrip (row.getD 0 [])
    if ref = [] then refs
    else if startswith (pyUpper ref) (str "FID") ∧ ref ∉ refs then refs ++ [ref]
    else refs

/-- Model of `collect_fid_refs`: distinct fiducial designators in
first-seen order. -/
def collect_fid_refs (file : List (List (List Char))) : List (List Char) :=
  match file with
  | [] => []
  | _header :: rows => rows.foldl collectFidStep []

/-! ## Machine-data generation (`gen_machine_data`) -/

/-- One feeder-catalog entry `[Feeder, Nozzle, Speed, Height]`. -/
structure Feeder where
  feeder : List Char
  nozzle : List Char
  speed : List Char
  height : List Char
deriving DecidableEq, Repr

/-- One emitted machine-data row (the dynamic fields of the tab-separated
output line; `key` is the resolved component key the Explanation is
sanitised from). -/
structure OutRow where
  ref : List Char
  nozzleOut : List Char
  feederOut : List Char
  posx : List Char
  posy : List Char
  rot : List Char
  heightOut : List Char
  speedOut : List Char
  key : List Char
  explanation : List Char
deriving DecidableEq, Repr

/-- The mutable state of the `gen_machine_data` loop.  `lookedUp` is an
observation log of the keys passed to `cfeeders.get` (it mirrors the
calls the source makes; it is not itself a Python variable). -/
structure MDState where
  mark1x : List Char
  mark1y : List Char
  mark2x : List Char
  mark2y : List Char
  rowsTotal : Nat
  rowsWithFeeders : Nat
  out : List OutRow
  lookedUp : List (List Char)
deriving DecidableEq, Repr

/-- Initial loop state: marks default to "0.00", counters to 0. -/
def initMD : MDState :=
  ⟨str "0.00", str "0.00", str "0.00", str "0.00", 0, 0, [], []⟩

/-- Model of `mark1_ref.upper() if mark1_ref else None`: an absent or empty
override yields `None`. -/
def optMarkUpper (o : Option (List Char)) : Option (List Char) :=
  match o with
  | some r => if r = [] then none else some (pyUpper r)
  | none => none

/-- Model of `if mark_ref_upper and ref_upper == mark_ref_upper`. -/
def markMatches (mu : Option (List Char)) (refU : List Char) : Bool :=
  match mu with
  | some m => decide (refU = m)
  | none => false

/-- The schema-dependent field extraction of the `gen_machine_data` loop:
`(ref, value, package, posx, posy, rot)` with all cells stripped, or
`none` when the row has too few columns. -/
structure Extracted where
  ref : List Char
  value : List Char
  package : List Char
  posx : List Char
  posy : List Char
  rot : List Char
deriving DecidableEq, Repr

/-- Field extraction for one row of `gen_machine_data`. -/
def extractRow (fmt : String) (row : List (List Char)) : Option Extracted :=
  if fmt = "kicad_pos" then
    if row.length < 6 then none else
    some ⟨pyStrip (row.getD 0 []), pyStrip (row.getD 1 []), pyStrip (row.getD 2 []),
      pyStrip (row.getD 3 []), pyStrip (row.getD 4 []), pyStrip (row.getD 5 [])⟩
  else if fmt = "positions" then
    if row.length < 5 then none else
    some ⟨pyStrip (row.getD 0 []), [], [],
      pyStrip (row.getD 1 []), pyStrip (row.getD 2 []), pyStrip (row.getD 3 [])⟩
  else
    if row.length < 6 then none else
    some ⟨pyStrip (row.getD 0 []), pyStrip (row.getD 1 []), pyStrip (row.getD 2 []),
      pyStrip (row.getD 3 []), pyStrip (row.getD 4 []), pyStrip (row.getD 5 [])⟩

/-- Model of `bom_ref_to_key.get(ref)` when a BOM index may be absent. -/
def bomGet (bom : Option BomFn) (ref : List Char) : Option (List Char) :=
  match bom with
  | some b => b ref
  | none => none

/-- Loop body of `gen_machine_data`, translated branch for branch. -/
def mdStep (fmt : String) (m1u m2u : Option (List Char)) (bom : Option BomFn)
    (cf : List Char → Option Feeder) (skip : Bool) (st : MDState)
    (row : List (List Char)) : MDState :=
  if row = [] then st else
  match extractRow fmt row with
  | none => st
  | some e =>
    if e.ref = [] then st else
    let refU := pyUpper e.ref
    if markMatches m1u refU then { st with mark1x := e.posx, mark1y := e.posy } else
    if markMatches m2u refU then { st with mark2x := e.posx, mark2y := e.posy } else
    if m1u = none ∧ (refU = str "FID01" ∨ refU = str "FID1") then
      { st with mark1x := e.posx, mark1y := e.posy } else
    if m2u = none ∧ (refU = str "FID02" ∨ refU = str "FID2") then
      { st with mark2x := e.posx, mark2y := e.posy } else
    if startswith refU (str "FID") then st else
    let componentKey :=
      match bomGet bom e.ref with
      | some k =>
          if k = [] then
            (if fmt = "positions" then e.ref else e.package ++ [' '] ++ e.value)
          else k
      | none => if fmt = "positions" then e.ref else e.package ++ [' '] ++ e.value
    let fp := (cf componentKey).getD ⟨[], [], [], []⟩
    let st1 := { st with lookedUp := st.lookedUp ++ [componentKey] }
    if skip ∧ fp.feeder = [] then st1 else
    let h := if fp.height = [] then str "0" else fp.height
    let s := if fp.speed = [] then str "100" else fp.speed
    let n := if fp.nozzle = [] then str "1" else fp.nozzle
    { st1 with
      rowsTotal := st1.rowsTotal + 1,
      rowsWithFeeders :=
        st1.rowsWithFeeders + (if fp.feeder ≠ [] ∨ fp.nozzle ≠ [] then 1 else 0),
      out := st1.out ++
        [⟨e.ref, n, fp.feeder, e.posx, e.posy, e.rot, h, s,
          componentKey, _sanitize_explanation componentKey⟩] }

/-- Model of `gen_machine_data`.  A file without a header row makes the
source execute a bare `return`, modelled as `none`; otherwise the final
loop state is returned (the source returns the pair
`(rows_total, rows_with_feeders)` of that state and writes the rows). -/
def gen_machine_data (file : List (List (List Char)))
    (cf : List Char → Option Feeder) (m1 m2 : Option (List Char))
    (bom : Option BomFn) (skip : Bool) : Option MDState :=
  match file with
  | [] => none
  | header :: rows =>
      some (rows.foldl
        (mdStep (_detect_pos_format header) (optMarkUpper m1) (optMarkUpper m2)
          bom cf skip)
        initMD)

/-- The emitted data rows of a `gen_machine_data` run (empty when the
source returned `None`). -/
def mdOut (r : Option MDState) : List OutRow :=
  (r.map MDState.out).getD []

/-- The component keys a `gen_machine_data` run looked up in the feeder
catalog. -/
def mdLookedUp (r : Option MDState) : List (List Char) :=
  (r.map MDState.lookedUp).getD []

/-- The `rows_total` result of a `gen_machine_data` run. -/
def mdRowsTotal (r : Option MDState) : Nat :=
  (r.map MDState.rowsTotal).getD 0

/-- The `rows_with_feeders` result of a `gen_machine_data` run. -/
def mdRowsWithFeeders (r : Option MDState) : Nat :=
  (r.map MDState.rowsWithFeeders).getD 0

/-! ## Characterising one iteration of the `gen_machine_data` loop

`rowEffect` computes, per data row, what the loop body does to the
state: optional mark-1/mark-2 writes, the catalog keys looked up, the
rows emitted and the counter increments.  `mdStep_eq` proves it equal to
the direct translation `mdStep`. -/

/-- What one row does to the `gen_machine_data` state. -/
structure Effect where
  mark1w : Option (List Char × List Char)
  mark2w : Option (List Char × List Char)
  looked : List (List Char)
  emitted : List OutRow
  dTotal : Nat
  dWith : Nat
deriving DecidableEq, Repr

/-- A skipped row: no state change. -/
def neutralEffect : Effect := ⟨none, none, [], [], 0, 0⟩

/-- Apply a row effect to the loop state. -/
def applyEffect (st : MDState) (e : Effect) : MDState :=
  { mark1x := ((e.mark1w.map Prod.fst).getD st.mark1x),
    mark1y := ((e.mark1w.map Prod.snd).getD st.mark1y),
    mark2x := ((e.mark2w.map Prod.fst).getD st.mark2x),
    mark2y := ((e.mark2w.map Prod.snd).getD st.mark2y),
    rowsTotal := st.rowsTotal + e.dTotal,
    rowsWithFeeders := st.rowsWithFeeders + e.dWith,
    out := st.out ++ e.emitted,
    lookedUp := st.lookedUp ++ e.looked }

/-- The effect of one row, mirroring the branch order of `mdStep`. -/
def rowEffect (fmt : String) (m1u m2u : Option (List Char)) (bom : Option BomFn)
    (cf : List Char → Option Feeder) (skip : Bool) (row : List (List Char)) :
    Effect :=
  if row = [] then neutralEffect else
  match extractRow fmt row with
  | none => neutralEffect
  | some e =>
    if e.ref = [] then neutralEffect else
    let refU := pyUpper e.ref
    if markMatches m1u refU then { neutralEffect with mark1w := some (e.posx, e.posy) } else
    if markMatches m2u refU then { neutralEffect with mark2w := some (e.posx, e.posy) } else
    if m1u = none ∧ (refU = str "FID01" ∨ refU = str "FID1") then
      { neutralEffect with mark1w := some (e.posx, e.posy) } else
    if m2u = none ∧ (refU = str "FID02" ∨ refU = str "FID2") then
      { neutralEffect with mark2w := some (e.posx, e.posy) } else
    if startswith refU (str "FID") then neutralEffect else
    let componentKey :=
      match bomGet bom e.ref with
      | some k =>
          if k = [] then
            (if fmt = "positions" then e.ref else e.package ++ [' '] ++ e.value)
          else k
      | none => if fmt = "positions" then e.ref else e.package ++ [' '] ++ e.value
    let fp := (cf componentKey).getD ⟨[], [], [], []⟩
    if skip ∧ fp.feeder = [] then { neutralEffect with looked := [componentKey] } else
    let h := if fp.height = [] then str "0" else fp.height
    let s := if fp.speed = [] then str "100" else fp.speed
    let n := if fp.nozzle = [] then str "1" else fp.nozzle
    { neutralEffect with
      looked := [componentKey],
      emitted := [⟨e.ref, n, fp.feeder, e.posx, e.posy, e.rot, h, s,
        componentKey, _sanitize_explanation componentKey⟩],
      dTotal := 1,
      dWith := if fp.feeder ≠ [] ∨ fp.nozzle ≠ [] then 1 else 0 }

theorem applyEffect_neutral (st : MDState) : applyEffect st neutralEffect = st := by
  simp [applyEffect, neutralEffect]

theorem mdStep_eq (fmt : String) (m1u m2u : Option (List Char))
    (bom : Option BomFn) (cf : List Char → Option Feeder) (skip : Bool)
    (st : MDState) (row : List (List Char)) :
    mdStep fmt m1u m2u bom cf skip st row =
      applyEffect st (rowEffect fmt m1u m2u bom cf skip row) := by
  by_cases h0 : row = []
  · simp [mdStep, rowEffect, h0, applyEffect_neutral]
  · rcases hE : extractRow fmt row with _ | e
    · simp [mdStep, rowEffect, h0, hE, applyEffect_neutral]
    · by_cases h1 : e.ref = []
      · simp [mdStep, rowEffect, h0, hE, h1, applyEffect_neutral]
      · by_cases hm1 : markMatches m1u (pyUpper e.ref) = true
        · simp [mdStep, rowEffect, h0, hE, h1, hm1, applyEffect, neutralEffect]
        · by_cases hm2 : markMatches m2u (pyUpper e.ref) = true
          · simp [mdStep, rowEffect, h0, hE, h1, hm1, hm2, applyEffect, neutralEffect]
          · by_cases hd1 : m1u = none ∧ (pyUpper e.ref = str "FID01" ∨ pyUpper e.ref = str "FID1")
            · simp [mdStep, rowEffect, h0, hE, h1, hm1, hm2, hd1, applyEffect, neutralEffect]
            · by_cases hd2 : m2u = none ∧ (pyUpper e.ref = str "FID02" ∨ pyUpper e.ref = str "FID2")
              · simp [mdStep, rowEffect, h0, hE, h1, hm1, hm2, hd1, hd2, applyEffect, neutralEffect]
              · by_cases hf : startswith (pyUpper e.ref) (str "FID") = true
                · simp [mdStep, rowEffect, h0, hE, h1, hm1, hm2, hd1, hd2, hf, applyEffect, neutralEffect]
                · simp only [mdStep, rowEffect, h0, hE, h1, hm1, hm2, hd1, hd2, hf,
                    if_false, ite_false, Bool.false_eq_true, if_neg, not_false_eq_true]
                  split_ifs <;> simp [applyEffect, neutralEffect]

/-- The catalog-lookup log of a `gen_machine_data` run is the
concatenation of the per-row lookups. -/
theorem foldl_lookedUp (fmt : String) (m1u m2u : Option (List Char))
    (bom : Option BomFn) (cf : List Char → Option Feeder) (skip : Bool)
    (rows : List (List (List Char))) (st : MDState) :
    (rows.foldl (mdStep fmt m1u m2u bom cf skip) st).lookedUp =
      st.lookedUp ++
        concatMap (fun r => (rowEffect fmt m1u m2u bom cf skip r).looked) rows := by
  induction rows generalizing st with
  | nil => simp [concatMap]
  | cons r rs ih =>
      rw [List.foldl_cons, mdStep_eq, ih]
      simp [applyEffect, concatMap]

/-- The emitted rows of a `gen_machine_data` run are the concatenation of
the per-row emissions. -/
theorem foldl_out (fmt : String) (m1u m2u : Option (List Char))
    (bom : Option BomFn) (cf : List Char → Option Feeder) (skip : Bool)
    (rows : List (List (List Char))) (st : MDState) :
    (rows.foldl (mdStep fmt m1u m2u bom cf skip) st).out =
      st.out ++
        concatMap (fun r => (rowEffect fmt m1u m2u bom cf skip r).emitted) rows := by
  induction rows generalizing st with
  | nil => simp [concatMap]
  | cons r rs ih =>
      rw [List.foldl_cons, mdStep_eq, ih]
      simp [applyEffect, concatMap]

/-- The counter `rows_total` is the sum of the per-row increments. -/
theorem foldl_rowsTotal (fmt : String) (m1u m2u : Option (List Char))
    (bom : Option BomFn) (cf : List Char → Option Feeder) (skip : Bool)
    (rows : List (List (List Char))) (st : MDState) :
    (rows.foldl (mdStep fmt m1u m2u bom cf skip) st).rowsTotal =
      st.rowsTotal +
        ((rows.map (fun r => (rowEffect fmt m1u m2u bom cf skip r).dTotal)).sum) := by
  induction rows generalizing st with
  | nil => simp
  | cons r rs ih =>
      rw [List.foldl_cons, mdStep_eq, ih]
      simp [applyEffect, Nat.add_assoc]

/-- The counter `rows_with_feeders` is the sum of the per-row increments. -/
theorem foldl_rowsWithFeeders (fmt : String) (m1u m2u : Option (List Char))
    (bom : Option BomFn) (cf : List Char → Option Feeder) (skip : Bool)
    (rows : List (List (List Char))) (st : MDState) :
    (rows.foldl (mdStep fmt m1u m2u bom cf skip) st).rowsWithFeeders =
      st.rowsWithFeeders +
        ((rows.map (fun r => (rowEffect fmt m1u m2u bom cf skip r).dWith)).sum) := by
  induction rows generalizing st with
  | nil => simp
  | cons r rs ih =>
      rw [List.foldl_cons, mdStep_eq, ih]
      simp [applyEffect, Nat.add_assoc]

/-- The final mark-1 coordinate pair is the last mark-1 write, the
initial pair when no row writes it. -/
theorem foldl_mark1 (fmt : String) (m1u m2u : Option (List Char))
    (bom : Option BomFn) (cf : List Char → Option Feeder) (skip : Bool)
    (rows : List (List (List Char))) (st : MDState) :
    ((rows.foldl (mdStep fmt m1u m2u bom cf skip) st).mark1x,
      (rows.foldl (mdStep fmt m1u m2u bom cf skip) st).mark1y) =
      (rows.filterMap (fun r => (rowEffect fmt m1u m2u bom cf skip r).mark1w)).getLastD
        (st.mark1x, st.mark1y) := by
  induction rows generalizing st with
  | nil => simp
  | cons r rs ih =>
      rw [List.foldl_cons, mdStep_eq]
      cases hw : (rowEffect fmt m1u m2u bom cf skip r).mark1w with
      | none =>
          rw [ih]
          simp [List.filterMap_cons, hw, applyEffect]
      | some p =>
          rw [ih]
          simp only [applyEffect, hw, Option.map_some', Option.getD_some,
            List.filterMap_cons, List.getLastD_cons, Prod.mk.eta]

/-- The final mark-2 coordinate pair is the last mark-2 write, the
initial pair when no row writes it. -/
theorem foldl_mark2 (fmt : String) (m1u m2u : Option (List Char))
    (bom : Option BomFn) (cf : List Char → Option Feeder) (skip : Bool)
    (rows : List (List (List Char))) (st : MDState) :
    ((rows.foldl (mdStep fmt m1u m2u bom cf skip) st).mark2x,
      (rows.foldl (mdStep fmt m1u m2u bom cf skip) st).mark2y) =
      (rows.filterMap (fun r => (rowEffect fmt m1u m2u bom cf skip r).mark2w)).getLastD
        (st.mark2x, st.mark2y) := by
  induction rows generalizing st with
  | nil => simp
  | cons r rs ih =>
      rw [List.foldl_cons, mdStep_eq]
      cases hw : (rowEffect fmt m1u m2u bom cf skip r).mark2w with
      | none =>
          rw [ih]
          simp [List.filterMap_cons, hw, applyEffect]
      | some p =>
          rw [ih]
          simp only [applyEffect, hw, Option.map_some', Option.getD_some,
            List.filterMap_cons, List.getLastD_cons, Prod.mk.eta]

/-! ## Which rows write the mark coordinates

`mark1HitCoord` / `mark2HitCoord` restate, per row, which branch of the
loop captures a mark coordinate, following the branch order of the
source: mark-1 override, mark-2 override, mark-1 default
(`FID01`/`FID1`, only without an override), mark-2 default
(`FID02`/`FID2`). -/

/-- The coordinate a row writes to mark 1, if any. -/
def mark1HitCoord (fmt : String) (m1u m2u : Option (List Char))
    (row : List (List Char)) : Option (List Char × List Char) :=
  if row = [] then none else
  match extractRow fmt row with
  | none => none
  | some e =>
    if e.ref = [] then none else
    let refU := pyUpper e.ref
    if markMatches m1u refU then some (e.posx, e.posy) else
    if markMatches m2u refU then none else
    if m1u = none ∧ (refU = str "FID01" ∨ refU = str "FID1") then
      some (e.posx, e.posy)
    else none

/-- The coordinate a row writes to mark 2, if any. -/
def mark2HitCoord (fmt : String) (m1u m2u : Option (List Char))
    (row : List (List Char)) : Option (List Char × List Char) :=
  if row = [] then none else
  match extractRow fmt row with
  | none => none
  | some e =>
    if e.ref = [] then none else
    let refU := pyUpper e.ref
    if markMatches m1u refU then none else
    if markMatches m2u refU then some (e.posx, e.posy) else
    if m1u = none ∧ (refU = str "FID01" ∨ refU = str "FID1") then none else
    if m2u = none ∧ (refU = str "FID02" ∨ refU = str "FID2") then
      some (e.posx, e.posy)
    else none

theorem rowEffect_mark1w (fmt : String) (m1u m2u : Option (List Char))
    (bom : Option BomFn) (cf : List Char → Option Feeder) (skip : Bool)
    (row : List (List Char)) :
    (rowEffect fmt m1u m2u bom cf skip row).mark1w = mark1HitCoord fmt m1u m2u row := by
  by_cases h0 : row = []
  · simp [rowEffect, mark1HitCoord, h0, neutralEffect]
  · rcases hE : extractRow fmt row with _ | e
    · simp [rowEffect, mark1HitCoord, h0, hE, neutralEffect]
    · by_cases h1 : e.ref = []
      · simp [rowEffect, mark1HitCoord, h0, hE, h1, neutralEffect]
      · by_cases hm1 : markMatches m1u (pyUpper e.ref) = true
        · simp [rowEffect, mark1HitCoord, h0, hE, h1, hm1, neutralEffect]
        · by_cases hm2 : markMatches m2u (pyUpper e.ref) = true
          · simp [rowEffect, mark1HitCoord, h0, hE, h1, hm1, hm2, neutralEffect]
          · by_cases hd1 : m1u = none ∧ (pyUpper e.ref = str "FID01" ∨ pyUpper e.ref = str "FID1")
            · simp [rowEffect, mark1HitCoord, h0, hE, h1, hm1, hm2, hd1, neutralEffect]
            · by_cases hd2 : m2u = none ∧ (pyUpper e.ref = str "FID02" ∨ pyUpper e.ref = str "FID2")
              · simp [rowEffect, mark1HitCoord, h0, hE, h1, hm1, hm2, hd1, hd2, neutralEffect]
              · by_cases hf : startswith (pyUpper e.ref) (str "FID") = true
                · simp [rowEffect, mark1HitCoord, h0, hE, h1, hm1, hm2, hd1, hd2, hf, neutralEffect]
                · simp only [rowEffect, mark1HitCoord, h0, hE, h1, hm1, hm2, hd1, hd2, hf,
                    if_false, ite_false, Bool.false_eq_true, not_false_eq_true, if_neg]
                  rw [apply_ite Effect.mark1w]
                  simp [neutralEffect]

theorem rowEffect_mark2w (fmt : String) (m1u m2u : Option (List Char))
    (bom : Option BomFn) (cf : List Char → Option Feeder) (skip : Bool)
    (row : List (List Char)) :
    (rowEffect fmt m1u m2u bom cf skip row).mark2w = mark2HitCoord fmt m1u m2u row := by
  by_cases h0 : row = []
  · simp [rowEffect, mark2HitCoord, h0, neutralEffect]
  · rcases hE : extractRow fmt row with _ | e
    · simp [rowEffect, mark2HitCoord, h0, hE, neutralEffect]
    · by_cases h1 : e.ref = []
      · simp [rowEffect, mark2HitCoord, h0, hE, h1, neutralEffect]
      · by_cases hm1 : markMatches m1u (pyUpper e.ref) = true
        · simp [rowEffect, mark2HitCoord, h0, hE, h1, hm1, neutralEffect]
        · by_cases hm2 : markMatches m2u (pyUpper e.ref) = true
          · simp [rowEffect, mark2HitCoord, h0, hE, h1, hm1, hm2, neutralEffect]
          · by_cases hd1 : m1u = none ∧ (pyUpper e.ref = str "FID01" ∨ pyUpper e.ref = str "FID1")
            · simp [rowEffect, mark2HitCoord, h0, hE, h1, hm1, hm2, hd1, neutralEffect]
            · by_cases hd2 : m2u = none ∧ (pyUpper e.ref = str "FID02" ∨ pyUpper e.ref = str "FID2")
              · simp [rowEffect, mark2HitCoord, h0, hE, h1, hm1, hm2, hd1, hd2, neutralEffect]
              · by_cases hf : startswith (pyUpper e.ref) (str "FID") = true
                · simp [rowEffect, mark2HitCoord, h0, hE, h1, hm1, hm2, hd1, hd2, hf, neutralEffect]
                · simp only [rowEffect, mark2HitCoord, h0, hE, h1, hm1, hm2, hd1, hd2, hf,
                    if_false, ite_false, Bool.false_eq_true, not_false_eq_true, if_neg]
                  rw [apply_ite Effect.mark2w]
                  simp [neutralEffect]

theorem mem_of_mem_ite_nil {c : Prop} [Decidable c] {l : List α} {a : α}
    (h : a ∈ (if c then ([] : List α) else l)) : a ∈ l := by
  by_cases hc : c
  · rw [if_pos hc] at h
    cases h
  · rwa [if_neg hc] at h

/-- Every row a `gen_machine_data` iteration emits carries a reference
whose uppercase form does not start with `FID`. -/
theorem rowEffect_emitted_ref (fmt : String) (m1u m2u : Option (List Char))
    (bom : Option BomFn) (cf : List Char → Option Feeder) (skip : Bool)
    (row : List (List Char)) :
    ∀ r ∈ (rowEffect fmt m1u m2u bom cf skip row).emitted,
      startswith (pyUpper r.ref) (str "FID") = false := by
  by_cases h0 : row = []
  · simp [rowEffect, h0, neutralEffect]
  · rcases hE : extractRow fmt row with _ | e
    · simp [rowEffect, h0, hE, neutralEffect]
    · by_cases h1 : e.ref = []
      · simp [rowEffect, h0, hE, h1, neutralEffect]
      · by_cases hm1 : markMatches m1u (pyUpper e.ref) = true
        · simp [rowEffect, h0, hE, h1, hm1, neutralEffect]
        · by_cases hm2 : markMatches m2u (pyUpper e.ref) = true
          · simp [rowEffect, h0, hE, h1, hm1, hm2, neutralEffect]
          · by_cases hd1 : m1u = none ∧ (pyUpper e.ref = str "FID01" ∨ pyUpper e.ref = str "FID1")
            · simp [rowEffect, h0, hE, h1, hm1, hm2, hd1, neutralEffect]
            · by_cases hd2 : m2u = none ∧ (pyUpper e.ref = str "FID02" ∨ pyUpper e.ref = str "FID2")
              · simp [rowEffect, h0, hE, h1, hm1, hm2, hd1, hd2, neutralEffect]
              · by_cases hf : startswith (pyUpper e.ref) (str "FID") = true
                · simp [rowEffect, h0, hE, h1, hm1, hm2, hd1, hd2, hf, neutralEffect]
                · simp only [rowEffect, h0, hE, h1, hm1, hm2, hd1, hd2, hf,
                    if_false, ite_false, Bool.false_eq_true, not_false_eq_true, if_neg]
                  rw [apply_ite Effect.emitted]
                  simp only [neutralEffect]
                  intro r hr
                  have hr2 := mem_of_mem_ite_nil hr
                  simp only [List.mem_singleton] at hr2
                  subst hr2
                  simpa [Bool.not_eq_true] using hf

/-! ## Claims -/

/-- Claim C6: `_detect_pos_format` is a pure function of the header cells
returning "kicad_pos" exactly for headers of at least 3 cells whose
normalised column 0 is "ref"/"reference", column 1 "val" and column 2
"package"; otherwise "positions" exactly for headers of at least 5 cells
whose normalised column 0 is "designator"/"ref" and columns 1-3 start
with "mid x"/"mid y"/"rotation"; and "unknown" in all remaining cases;
normalisation handles letter-case and a leading byte-order mark. -/
theorem C6_detect_pos_format_classification (header : List (List Char)) :
    (_detect_pos_format header = "kicad_pos" ↔
      (3 ≤ header.length ∧
        ((header.map normHeaderCell).getD 0 [] = str "ref" ∨
          (header.map normHeaderCell).getD 0 [] = str "reference") ∧
        (header.map normHeaderCell).getD 1 [] = str "val" ∧
        (header.map normHeaderCell).getD 2 [] = str "package")) ∧
    (_detect_pos_format header = "positions" ↔
      (¬(3 ≤ header.length ∧
        ((header.map normHeaderCell).getD 0 [] = str "ref" ∨
          (header.map normHeaderCell).getD 0 [] = str "reference") ∧
        (header.map normHeaderCell).getD 1 [] = str "val" ∧
        (header.map normHeaderCell).getD 2 [] = str "package") ∧
       (5 ≤ header.length ∧
        ((header.map normHeaderCell).getD 0 [] = str "designator" ∨
          (header.map normHeaderCell).getD 0 [] = str "ref") ∧
        startswith ((header.map normHeaderCell).getD 1 []) (str "mid x") = true ∧
        startswith ((header.map normHeaderCell).getD 2 []) (str "mid y") = true ∧
        startswith ((header.map normHeaderCell).getD 3 []) (str "rotation") = true))) ∧
    (_detect_pos_format header = "unknown" ↔
      (¬(3 ≤ header.length ∧
        ((header.map normHeaderCell).getD 0 [] = str "ref" ∨
          (header.map normHeaderCell).getD 0 [] = str "reference") ∧
        (header.map normHeaderCell).getD 1 [] = str "val" ∧
        (header.map normHeaderCell).getD 2 [] = str "package") ∧
       ¬(5 ≤ header.length ∧
        ((header.map normHeaderCell).getD 0 [] = str "designator" ∨
          (header.map normHeaderCell).getD 0 [] = str "ref") ∧
        startswith ((header.map normHeaderCell).getD 1 []) (str "mid x") = true ∧
        startswith ((header.map normHeaderCell).getD 2 []) (str "mid y") = true ∧
        startswith ((header.map normHeaderCell).getD 3 []) (str "rotation") = true))) := by
  unfold _detect_pos_format
  simp only [List.length_map]
  split_ifs with hK hP <;> refine ⟨?_, ?_, ?_⟩ <;> simp_all

/-- Claim C8 (evaluation): on a placement file without a header row
`gen_machine_data` executes the bare `return`, i.e. yields `none` rather
than the pair `(0, 0)`; with a header row present it does yield the
final state, in particular `(0, 0)` for a header-only file. -/
theorem C8_headerless_returns_none (cf : List Char → Option Feeder)
    (m1 m2 : Option (List Char)) (bom : Option BomFn) (skip : Bool) :
    gen_machine_data [] cf m1 m2 bom skip = none ∧
    (∀ header : List (List Char),
      mdRowsTotal (gen_machine_data [header] cf m1 m2 bom skip) = 0 ∧
      mdRowsWithFeeders (gen_machine_data [header] cf m1 m2 bom skip) = 0 ∧
      (gen_machine_data [header] cf m1 m2 bom skip).isSome = true) := by
  refine ⟨rfl, fun header => ⟨rfl, rfl, rfl⟩⟩

/-- Field extraction always takes the reference from the stripped cell 0. -/
theorem extractRow_ref (fmt : String) (row : List (List Char)) (e : Extracted)
    (h : extractRow fmt row = some e) : e.ref = pyStrip (row.getD 0 []) := by
  unfold extractRow at h
  split_ifs at h <;> cases h <;> rfl

/-- The Explanation of every emitted row is the sanitised component key. -/
theorem rowEffect_emitted_explanation (fmt : String) (m1u m2u : Option (List Char))
    (bom : Option BomFn) (cf : List Char → Option Feeder) (skip : Bool)
    (row : List (List Char)) :
    ∀ r ∈ (rowEffect fmt m1u m2u bom cf skip row).emitted,
      r.explanation = _sanitize_explanation r.key := by
  by_cases h0 : row = []
  · simp [rowEffect, h0, neutralEffect]
  · rcases hE : extractRow fmt row with _ | e
    · simp [rowEffect, h0, hE, neutralEffect]
    · by_cases h1 : e.ref = []
      · simp [rowEffect, h0, hE, h1, neutralEffect]
      · by_cases hm1 : markMatches m1u (pyUpper e.ref) = true
        · simp [rowEffect, h0, hE, h1, hm1, neutralEffect]
        · by_cases hm2 : markMatches m2u (pyUpper e.ref) = true
          · simp [rowEffect, h0, hE, h1, hm1, hm2, neutralEffect]
          · by_cases hd1 : m1u = none ∧ (pyUpper e.ref = str "FID01" ∨ pyUpper e.ref = str "FID1")
            · simp [rowEffect, h0, hE, h1, hm1, hm2, hd1, neutralEffect]
            · by_cases hd2 : m2u = none ∧ (pyUpper e.ref = str "FID02" ∨ pyUpper e.ref = str "FID2")
              · simp [rowEffect, h0, hE, h1, hm1, hm2, hd1, hd2, neutralEffect]
              · by_cases hf : startswith (pyUpper e.ref) (str "FID") = true
                · simp [rowEffect, h0, hE, h1, hm1, hm2, hd1, hd2, hf, neutralEffect]
                · simp only [rowEffect, h0, hE, h1, hm1, hm2, hd1, hd2, hf,
                    if_false, ite_false, Bool.false_eq_true, not_false_eq_true, if_neg]
                  rw [apply_ite Effect.emitted]
                  simp only [neutralEffect]
                  intro r hr
                  have hr2 := mem_of_mem_ite_nil hr
                  simp only [List.mem_singleton] at hr2
                  subst hr2
                  rfl

/-- Composing two `filter`s is one `filter` with the conjunction. -/
theorem filter_then_filter (p q : Char → Bool) (l : List Char) :
    (l.filter p).filter q = l.filter fun a => p a && q a := by
  induction l with
  | nil => rfl
  | cons a l ih =>
      by_cases hp : p a <;> by_cases hq : q a <;>
        simp [List.filter_cons, hp, hq, ih]

/-- A row whose stripped first cell uppercases to a `FID`-prefixed string
never reaches the emitting branch of the machine-data loop. -/
theorem rowEffect_emitted_nil_of_fid (fmt : String) (m1u m2u : Option (List Char))
    (bom : Option BomFn) (cf : List Char → Option Feeder) (skip : Bool)
    (row : List (List Char))
    (hfid : startswith (pyUpper (pyStrip (row.getD 0 []))) (str "FID") = true) :
    (rowEffect fmt m1u m2u bom cf skip row).emitted = [] := by
  by_cases h0 : row = []
  · simp [rowEffect, h0, neutralEffect]
  · rcases hE : extractRow fmt row with _ | e
    · simp [rowEffect, h0, hE, neutralEffect]
    · rw [← extractRow_ref fmt row e hE] at hfid
      by_cases h1 : e.ref = []
      · simp [rowEffect, h0, hE, h1, neutralEffect]
      · by_cases hm1 : markMatches m1u (pyUpper e.ref) = true
        · simp [rowEffect, h0, hE, h1, hm1, neutralEffect]
        · by_cases hm2 : markMatches m2u (pyUpper e.ref) = true
          · simp [rowEffect, h0, hE, h1, hm1, hm2, neutralEffect]
          · by_cases hd1 : m1u = none ∧ (pyUpper e.ref = str "FID01" ∨ pyUpper e.ref = str "FID1")
            · simp [rowEffect, h0, hE, h1, hm1, hm2, hd1, neutralEffect]
            · by_cases hd2 : m2u = none ∧ (pyUpper e.ref = str "FID02" ∨ pyUpper e.ref = str "FID2")
              · simp [rowEffect, h0, hE, h1, hm1, hm2, hd1, hd2, neutralEffect]
              · simp [rowEffect, h0, hE, h1, hm1, hm2, hd1, hd2, hfid, neutralEffect]

theorem genComponentsListStep_none_of_fid (fmt : String) (row : List (List Char))
    (h : startswith (pyUpper (pyStrip (row.getD 0 []))) (str "FID") = true) :
    genComponentsListStep fmt row = none := by
  unfold genComponentsListStep
  split_ifs <;> simp_all

theorem genComponentsListFromBomStep_none_of_fid (fmt : String) (b : BomFn)
    (row : List (List Char))
    (h : startswith (pyUpper (pyStrip (row.getD 0 []))) (str "FID") = true) :
    genComponentsListFromBomStep fmt b row = none := by
  unfold genComponentsListFromBomStep
  split_ifs <;> simp_all

/-- A sample placement file: KicadPos header and one full `R1` row. -/
def exFileC2 : List (List (List Char)) :=
  [[str "Ref", str "Val", str "Package"],
   [str "R1", str "10k", str "0402", str "1", str "2", str "3"]]

/-- The single machine-data row `exFileC2` produces with an empty feeder
catalog and no BOM. -/
def exRowC2 : OutRow :=
  ⟨str "R1", str "1", [], str "1", str "2", str "3", str "0", str "100",
    str "0402 10k", str "0402 10k"⟩

/-- Claim C2: a placement row whose trimmed reference uppercases to a
string starting with "FID" appears in no data row of either artifact:
`gen_machine_data` emits no output row carrying such a reference (such
rows are consumed only as mark coordinates or dropped), and neither
template writer derives a component key from such a row. -/
theorem C2_fiducials_excluded :
    (∀ (file : List (List (List Char))) (cf : List Char → Option Feeder)
        (m1 m2 : Option (List Char)) (bom : Option BomFn) (skip : Bool),
      ∀ r ∈ mdOut (gen_machine_data file cf m1 m2 bom skip),
        startswith (pyUpper r.ref) (str "FID") = false) ∧
    (∀ (fmt : String) (row : List (List Char)),
      startswith (pyUpper (pyStrip (row.getD 0 []))) (str "FID") = true →
        genComponentsListStep fmt row = none ∧
        ∀ b : BomFn, genComponentsListFromBomStep fmt b row = none) ∧
    (∀ (fmt : String) (m1u m2u : Option (List Char)) (bom : Option BomFn)
        (cf : List Char → Option Feeder) (skip : Bool) (st : MDState)
        (row : List (List Char)),
      startswith (pyUpper (pyStrip (row.getD 0 []))) (str "FID") = true →
        (mdStep fmt m1u m2u bom cf skip st row).out = st.out) := by
  refine ⟨?_, ?_, ?_⟩
  · intro file cf m1 m2 bom skip r hr
    cases file with
    | nil => simp [gen_machine_data, mdOut] at hr
    | cons header rows =>
        simp only [gen_machine_data, mdOut, Option.map_some', Option.getD_some] at hr
        rw [foldl_out] at hr
        simp only [initMD, List.nil_append] at hr
        rw [mem_concatMap] at hr
        obtain ⟨row, _, hrow⟩ := hr
        exact rowEffect_emitted_ref _ _ _ _ _ _ _ r hrow
  · intro fmt row h
    exact ⟨genComponentsListStep_none_of_fid fmt row h,
      fun b => genComponentsListFromBomStep_none_of_fid fmt b row h⟩
  · intro fmt m1u m2u bom cf skip st row h
    rw [mdStep_eq]
    simp [applyEffect, rowEffect_emitted_nil_of_fid fmt m1u m2u bom cf skip row h]

/-- Witness for C2 at concrete inputs. -/
theorem C2_fiducials_excluded_witness :
    startswith (pyUpper exRowC2.ref) (str "FID") = false ∧
    genComponentsListStep "kicad_pos" [str "FID3", str "1", str "2"] = none ∧
    genComponentsListFromBomStep "kicad_pos" (fun _ => none) [str "FID3", str "1", str "2"] = none ∧
    (mdStep "kicad_pos" none none none (fun _ => none) false initMD
      [str "FID9", str "v", str "p", str "1", str "2", str "3"]).out = initMD.out := by
  refine ⟨?_, ?_, ?_, ?_⟩
  · exact C2_fiducials_excluded.1 exFileC2 (fun _ => none) none none none false
      exRowC2 (by decide)
  · exact (C2_fiducials_excluded.2.1 "kicad_pos" [str "FID3", str "1", str "2"] (by decide)).1
  · exact (C2_fiducials_excluded.2.1 "kicad_pos" [str "FID3", str "1", str "2"] (by decide)).2
      (fun _ => none)
  · exact C2_fiducials_excluded.2.2 "kicad_pos" none none none (fun _ => none) false initMD
      [str "FID9", str "v", str "p", str "1", str "2", str "3"] (by decide)

/-- Claim C9 (amended): the Explanation of every emitted machine-data
row is the row's component key with every occurrence of the double
quote, the ASCII parentheses and the full-width parentheses removed and
the result trimmed; `R(10k)"A"` becomes `R10kA`.  (The full-width double
quote is not in the removed set; see the counterexample.) -/
theorem C9_explanation_sanitisation :
    (∀ (file : List (List (List Char))) (cf : List Char → Option Feeder)
        (m1 m2 : Option (List Char)) (bom : Option BomFn) (skip : Bool),
      ∀ r ∈ mdOut (gen_machine_data file cf m1 m2 bom skip),
        r.explanation = _sanitize_explanation r.key) ∧
    (∀ t : List Char, _sanitize_explanation t =
      pyStrip (t.filter (fun c =>
        !(c = '"' || c = '(' || c = ')' || c = '（' || c = '）')))) ∧
    _sanitize_explanation (str "R(10k)\"A\"") = str "R10kA" := by
  refine ⟨?_, ?_, by decide⟩
  · intro file cf m1 m2 bom skip r hr
    cases file with
    | nil => simp [gen_machine_data, mdOut] at hr
    | cons header rows =>
        simp only [gen_machine_data, mdOut, Option.map_some', Option.getD_some] at hr
        rw [foldl_out] at hr
        simp only [initMD, List.nil_append] at hr
        rw [mem_concatMap] at hr
        obtain ⟨row, _, hrow⟩ := hr
        exact rowEffect_emitted_explanation _ _ _ _ _ _ _ r hrow
  · intro t
    unfold _sanitize_explanation
    simp only [List.foldl_cons, List.foldl_nil]
    rw [filter_then_filter, filter_then_filter, filter_then_filter, filter_then_filter]
    congr 1
    apply List.filter_congr
    intro a _
    by_cases h1 : a = '"' <;> by_cases h2 : a = '(' <;> by_cases h3 : a = ')' <;>
      by_cases h4 : a = '（' <;> by_cases h5 : a = '）' <;> simp [h1, h2, h3, h4, h5]

/-- Witness for C9 at concrete inputs. -/
theorem C9_explanation_sanitisation_witness :
    exRowC2.explanation = _sanitize_explanation exRowC2.key ∧
    _sanitize_explanation (str "a(b)") =
      pyStrip ((str "a(b)").filter (fun c =>
        !(c = '"' || c = '(' || c = ')' || c = '（' || c = '）'))) := by
  exact ⟨C9_explanation_sanitisation.1 exFileC2 (fun _ => none) none none none false
      exRowC2 (by decide),
    C9_explanation_sanitisation.2.1 (str "a(b)")⟩

/-- Claim C9 counterexample: the full-width double quote (U+FF02) is not
removed by `_sanitize_explanation`, contrary to the claim that
full-width quote characters are removed. -/
theorem C9_fullwidth_quote_not_removed :
    _sanitize_explanation (str "＂A＂") = str "＂A＂" ∧
    str "＂A＂" ≠ str "A" := by
  exact ⟨by decide, by decide⟩

/-- If every catalog entry with an empty feeder slot also has an empty
nozzle, the same holds after the `.get(key, default)` lookup. -/
theorem feeder_empty_nozzle (cf : List Char → Option Feeder)
    (hcf : ∀ k fp, cf k = some fp → fp.feeder = [] → fp.nozzle = [])
    (k : List Char) (h : ((cf k).getD ⟨[], [], [], []⟩).feeder = []) :
    ((cf k).getD ⟨[], [], [], []⟩).nozzle = [] := by
  cases hck : cf k with
  | none => rfl
  | some fp0 =>
      rw [hck] at h
      exact hcf k fp0 hck h

/-- Comparison of the two branches taken after a catalog lookup, for
`skip_no_feeder` reasoning. -/
theorem skip_compare (cf : List Char → Option Feeder) (K : List Char)
    (L M : Effect) (hL : L.dTotal = 0) (hLw : L.dWith = 0) (hM : M.dTotal = 1)
    (hMw : M.dWith =
      if ((cf K).getD ⟨[], [], [], []⟩).feeder ≠ [] ∨
          ((cf K).getD ⟨[], [], [], []⟩).nozzle ≠ [] then 1 else 0) :
    (if ((cf K).getD ⟨[], [], [], []⟩).feeder = [] then L else M).dTotal ≤ M.dTotal ∧
    (if ((cf K).getD ⟨[], [], [], []⟩).feeder = [] then L else M).dWith ≤ M.dWith ∧
    ((∀ k fp, cf k = some fp → fp.feeder = [] → fp.nozzle = []) →
      (if ((cf K).getD ⟨[], [], [], []⟩).feeder = [] then L else M).dWith = M.dWith) := by
  by_cases hC : ((cf K).getD ⟨[], [], [], []⟩).feeder = []
  · rw [if_pos hC]
    refine ⟨?_, ?_, ?_⟩
    · rw [hL, hM]
      exact Nat.zero_le 1
    · rw [hLw]
      exact Nat.zero_le _
    · intro hcf
      have hn := feeder_empty_nozzle cf hcf K hC
      rw [hLw, hMw]
      simp [hC, hn]
  · rw [if_neg hC]
    exact ⟨Nat.le_refl _, Nat.le_refl _, fun _ => rfl⟩

/-- Per-row comparison of the loop effect under `skip_no_feeder` true
versus false. -/
theorem rowEffect_skip (fmt : String) (m1u m2u : Option (List Char))
    (bom : Option BomFn) (cf : List Char → Option Feeder)
    (row : List (List Char)) :
    (rowEffect fmt m1u m2u bom cf true row).dTotal ≤
      (rowEffect fmt m1u m2u bom cf false row).dTotal ∧
    (rowEffect fmt m1u m2u bom cf true row).dWith ≤
      (rowEffect fmt m1u m2u bom cf false row).dWith ∧
    ((∀ k fp, cf k = some fp → fp.feeder = [] → fp.nozzle = []) →
      (rowEffect fmt m1u m2u bom cf true row).dWith =
        (rowEffect fmt m1u m2u bom cf false row).dWith) := by
  by_cases h0 : row = []
  · simp [rowEffect, h0, neutralEffect]
  · rcases hE : extractRow fmt row with _ | e
    · simp [rowEffect, h0, hE, neutralEffect]
    · by_cases h1 : e.ref = []
      · simp [rowEffect, h0, hE, h1, neutralEffect]
      · by_cases hm1 : markMatches m1u (pyUpper e.ref) = true
        · simp [rowEffect, h0, hE, h1, hm1, neutralEffect]
        · by_cases hm2 : markMatches m2u (pyUpper e.ref) = true
          · simp [rowEffect, h0, hE, h1, hm1, hm2, neutralEffect]
          · by_cases hd1 : m1u = none ∧ (pyUpper e.ref = str "FID01" ∨ pyUpper e.ref = str "FID1")
            · simp [rowEffect, h0, hE, h1, hm1, hm2, hd1, neutralEffect]
            · by_cases hd2 : m2u = none ∧ (pyUpper e.ref = str "FID02" ∨ pyUpper e.ref = str "FID2")
              · simp [rowEffect, h0, hE, h1, hm1, hm2, hd1, hd2, neutralEffect]
              · by_cases hf : startswith (pyUpper e.ref) (str "FID") = true
                · simp [rowEffect, h0, hE, h1, hm1, hm2, hd1, hd2, hf, neutralEffect]
                · simp only [rowEffect, h0, hE, h1, hm1, hm2, hd1, hd2, hf,
                    if_false, ite_false, Bool.false_eq_true, not_false_eq_true, if_neg,
                    false_and, and_false, true_and, eq_self_iff_true]
                  exact skip_compare cf _ _ _ rfl rfl rfl rfl

/-- Claim C4 (amended): with `skip_no_feeder=true` the run yields a
`rows_total` at most that of the `false` run and a `rows_with_feeders`
at most that of the `false` run; the two `rows_with_feeders` coincide
whenever no catalog value pairs an empty feeder slot with a non-empty
nozzle.  (They can differ otherwise; see the counterexample.) -/
theorem C4_skip_no_feeder_monotone (file : List (List (List Char)))
    (cf : List Char → Option Feeder) (m1 m2 : Option (List Char))
    (bom : Option BomFn) :
    mdRowsTotal (gen_machine_data file cf m1 m2 bom true) ≤
      mdRowsTotal (gen_machine_data file cf m1 m2 bom false) ∧
    mdRowsWithFeeders (gen_machine_data file cf m1 m2 bom true) ≤
      mdRowsWithFeeders (gen_machine_data file cf m1 m2 bom false) ∧
    ((∀ k fp, cf k = some fp → fp.feeder = [] → fp.nozzle = []) →
      mdRowsWithFeeders (gen_machine_data file cf m1 m2 bom true) =
        mdRowsWithFeeders (gen_machine_data file cf m1 m2 bom false)) := by
  cases file with
  | nil => simp [gen_machine_data, mdRowsTotal, mdRowsWithFeeders]
  | cons header rows =>
      simp only [gen_machine_data, mdRowsTotal, mdRowsWithFeeders, Option.map_some',
        Option.getD_some]
      rw [foldl_rowsTotal, foldl_rowsTotal, foldl_rowsWithFeeders, foldl_rowsWithFeeders]
      simp only [initMD, Nat.zero_add]
      refine ⟨?_, ?_, ?_⟩
      · exact List.sum_le_sum fun r _ =>
          (rowEffect_skip (_detect_pos_format header) (optMarkUpper m1) (optMarkUpper m2)
            bom cf r).1
      · exact List.sum_le_sum fun r _ =>
          (rowEffect_skip (_detect_pos_format header) (optMarkUpper m1) (optMarkUpper m2)
            bom cf r).2.1
      · intro hcf
        have hmap :
            rows.map (fun r => (rowEffect (_detect_pos_format header) (optMarkUpper m1)
                (optMarkUpper m2) bom cf true r).dWith) =
            rows.map (fun r => (rowEffect (_detect_pos_format header) (optMarkUpper m1)
                (optMarkUpper m2) bom cf false r).dWith) :=
          List.map_congr_left fun r _ =>
            (rowEffect_skip (_detect_pos_format header) (optMarkUpper m1) (optMarkUpper m2)
              bom cf r).2.2 hcf
        rw [hmap]

/-- Witness for C4 at concrete inputs. -/
theorem C4_skip_no_feeder_monotone_witness :
    mdRowsWithFeeders (gen_machine_data exFileC2 (fun _ => none) none none none true) =
      mdRowsWithFeeders (gen_machine_data exFileC2 (fun _ => none) none none none false) := by
  exact (C4_skip_no_feeder_monotone exFileC2 (fun _ => none) none none none).2.2
    (fun k fp h => nomatch h)

/-- A catalog whose only entry has an empty feeder slot but a non-empty
nozzle. -/
def cfC4 : List Char → Option Feeder :=
  fun k => if k = str "0402 10k" then some ⟨[], str "2", [], []⟩ else none

/-- Claim C4 counterexample: with this catalog, `skip_no_feeder=true`
changes `rows_with_feeders` (0 versus 1), contrary to the claim that it
never changes. -/
theorem C4_rows_with_feeders_changes :
    mdRowsWithFeeders (gen_machine_data exFileC2 cfC4 none none none true) = 0 ∧
    mdRowsWithFeeders (gen_machine_data exFileC2 cfC4 none none none false) = 1 := by
  exact ⟨by decide, by decide⟩

/-- A row that writes a mark coordinate is never emitted. -/
theorem rowEffect_emitted_nil_of_hit (fmt : String) (m1u m2u : Option (List Char))
    (bom : Option BomFn) (cf : List Char → Option Feeder) (skip : Bool)
    (row : List (List Char))
    (h : (mark1HitCoord fmt m1u m2u row).isSome = true ∨
      (mark2HitCoord fmt m1u m2u row).isSome = true) :
    (rowEffect fmt m1u m2u bom cf skip row).emitted = [] := by
  by_cases h0 : row = []
  · simp [rowEffect, h0, neutralEffect]
  · rcases hE : extractRow fmt row with _ | e
    · simp [rowEffect, h0, hE, neutralEffect]
    · by_cases h1 : e.ref = []
      · simp [rowEffect, h0, hE, h1, neutralEffect]
      · by_cases hm1 : markMatches m1u (pyUpper e.ref) = true
        · simp [rowEffect, h0, hE, h1, hm1, neutralEffect]
        · by_cases hm2 : markMatches m2u (pyUpper e.ref) = true
          · simp [rowEffect, h0, hE, h1, hm1, hm2, neutralEffect]
          · by_cases hd1 : m1u = none ∧ (pyUpper e.ref = str "FID01" ∨ pyUpper e.ref = str "FID1")
            · simp [rowEffect, h0, hE, h1, hm1, hm2, hd1, neutralEffect]
            · by_cases hd2 : m2u = none ∧ (pyUpper e.ref = str "FID02" ∨ pyUpper e.ref = str "FID2")
              · simp [rowEffect, h0, hE, h1, hm1, hm2, hd1, hd2, neutralEffect]
              · simp [mark1HitCoord, mark2HitCoord, h0, hE, h1, hm1, hm2, hd1, hd2] at h

/-- Claim C5 (amended): the mark-1 (resp. mark-2) coordinates returned
by `gen_machine_data` are those of the LAST placement row matching that
mark's designator (override when given and non-empty, else the
`FID01`/`FID1` resp. `FID02`/`FID2` defaults, in the branch order
mark-1 override, mark-2 override, mark-1 default, mark-2 default); every
matching row is excluded from the output; a mark with no matching row
keeps the defaults `"0.00"`, `"0.00"`. -/
theorem C5_mark_capture (header : List (List Char))
    (rows : List (List (List Char))) (cf : List Char → Option Feeder)
    (m1 m2 : Option (List Char)) (bom : Option BomFn) (skip : Bool)
    (st : MDState)
    (h : gen_machine_data (header :: rows) cf m1 m2 bom skip = some st) :
    (st.mark1x, st.mark1y) =
      (rows.filterMap (mark1HitCoord (_detect_pos_format header)
        (optMarkUpper m1) (optMarkUpper m2))).getLastD (str "0.00", str "0.00") ∧
    (st.mark2x, st.mark2y) =
      (rows.filterMap (mark2HitCoord (_detect_pos_format header)
        (optMarkUpper m1) (optMarkUpper m2))).getLastD (str "0.00", str "0.00") ∧
    (∀ row ∈ rows,
      ((mark1HitCoord (_detect_pos_format header) (optMarkUpper m1) (optMarkUpper m2)
          row).isSome = true ∨
        (mark2HitCoord (_detect_pos_format header) (optMarkUpper m1) (optMarkUpper m2)
          row).isSome = true) →
      ∀ st0 : MDState,
        (mdStep (_detect_pos_format header) (optMarkUpper m1) (optMarkUpper m2)
          bom cf skip st0 row).out = st0.out) := by
  simp only [gen_machine_data, Option.some.injEq] at h
  subst h
  refine ⟨?_, ?_, ?_⟩
  · have h1 := foldl_mark1 (_detect_pos_format header) (optMarkUpper m1) (optMarkUpper m2)
      bom cf skip rows initMD
    simp only [rowEffect_mark1w] at h1
    exact h1
  · have h2 := foldl_mark2 (_detect_pos_format header) (optMarkUpper m1) (optMarkUpper m2)
      bom cf skip rows initMD
    simp only [rowEffect_mark2w] at h2
    exact h2
  · intro row _ hhit st0
    rw [mdStep_eq]
    simp [applyEffect,
      rowEffect_emitted_nil_of_hit (_detect_pos_format header) (optMarkUpper m1)
        (optMarkUpper m2) bom cf skip row hhit]

/-- KicadPos header used by the mark-capture examples. -/
def exHeaderK : List (List Char) := [str "Ref", str "Val", str "Package"]

/-- Two rows both matching the default mark-1 designator `FID1`, with
different coordinates. -/
def exRowsC5 : List (List (List Char)) :=
  [[str "FID1", str "", str "", str "1.5", str "2.5", str "0"],
   [str "FID1", str "", str "", str "3.5", str "4.5", str "0"]]

/-- The final state of `gen_machine_data` on `exHeaderK :: exRowsC5`. -/
def exStC5 : MDState :=
  ⟨str "3.5", str "4.5", str "0.00", str "0.00", 0, 0, [], []⟩

/-- Witness for C5 at concrete inputs. -/
theorem C5_mark_capture_witness :
    (exStC5.mark1x, exStC5.mark1y) =
      (exRowsC5.filterMap (mark1HitCoord (_detect_pos_format exHeaderK)
        (optMarkUpper none) (optMarkUpper none))).getLastD (str "0.00", str "0.00") := by
  exact (C5_mark_capture exHeaderK exRowsC5 (fun _ => none) none none none false exStC5
    (by decide)).1

/-- Claim C5 counterexample: with two `FID1` rows the captured mark-1 x
coordinate is that of the LAST matching row (`"3.5"`), not the first
(`"1.5"`); the first capture is overwritten. -/
theorem C5_first_match_not_kept :
    (gen_machine_data (exHeaderK :: exRowsC5) (fun _ => none) none none none
        false).map MDState.mark1x = some (str "3.5") ∧
    str "3.5" ≠ str "1.5" := by
  exact ⟨by decide, by decide⟩

/-- Claim C10 (amended): a row whose trimmed reference equals a
non-empty mark-1 override case-insensitively is always captured as the
mark-1 coordinate and excluded from the output (fiducial or not); the
same holds for the mark-2 override provided the row does not also match
the mark-1 override, which is checked first. -/
theorem C10_override_captures (fmt : String) (bom : Option BomFn)
    (cf : List Char → Option Feeder) (skip : Bool) (st : MDState)
    (row : List (List Char)) (e : Extracted)
    (h0 : row ≠ []) (hE : extractRow fmt row = some e) (h1 : e.ref ≠ []) :
    (∀ o : List Char, o ≠ [] → pyUpper e.ref = pyUpper o →
      ∀ m2u : Option (List Char),
        mdStep fmt (optMarkUpper (some o)) m2u bom cf skip st row =
          { st with mark1x := e.posx, mark1y := e.posy }) ∧
    (∀ o2 : List Char, o2 ≠ [] → pyUpper e.ref = pyUpper o2 →
      ∀ m1u : Option (List Char), markMatches m1u (pyUpper e.ref) = false →
        mdStep fmt m1u (optMarkUpper (some o2)) bom cf skip st row =
          { st with mark2x := e.posx, mark2y := e.posy }) := by
  constructor
  · intro o ho heq m2u
    have hmm : markMatches (optMarkUpper (some o)) (pyUpper e.ref) = true := by
      simp [optMarkUpper, ho, markMatches, heq]
    simp [mdStep, h0, hE, h1, hmm]
  · intro o2 ho2 heq m1u hne
    have hmm : markMatches (optMarkUpper (some o2)) (pyUpper e.ref) = true := by
      simp [optMarkUpper, ho2, markMatches, heq]
    simp [mdStep, h0, hE, h1, hne, hmm]

/-- Witness for C10 at concrete inputs (lowercase override `r1` captures
the ordinary component `R1` and drops it from the output). -/
theorem C10_override_captures_witness :
    mdStep "kicad_pos" (optMarkUpper (some (str "r1"))) none none (fun _ => none) false
      initMD [str "R1", str "10k", str "0402", str "5", str "6", str "90"] =
      { initMD with mark1x := str "5", mark1y := str "6" } := by
  exact (C10_override_captures "kicad_pos" none (fun _ => none) false initMD
      [str "R1", str "10k", str "0402", str "5", str "6", str "90"]
      ⟨str "R1", str "10k", str "0402", str "5", str "6", str "90"⟩
      (by decide) (by decide) (by decide)).1 (str "r1") (by decide) (by decide) none

/-- Claim C10 counterexample: with equal mark-1 and mark-2 overrides
`R1`, the matching row is captured as mark 1 only; mark 2 keeps the
default, contrary to the claim applied to the mark-2 override. -/
theorem C10_equal_overrides_mark2_not_captured :
    (gen_machine_data
        (exHeaderK :: [[str "R1", str "10k", str "0402", str "5", str "6", str "90"]])
        (fun _ => none) (some (str "R1")) (some (str "R1")) none false).map
      MDState.mark2x = some (str "0.00") ∧
    (gen_machine_data
        (exHeaderK :: [[str "R1", str "10k", str "0402", str "5", str "6", str "90"]])
        (fun _ => none) (some (str "R1")) (some (str "R1")) none false).map
      MDState.mark1x = some (str "5") ∧
    str "0.00" ≠ str "5" := by
  exact ⟨by decide, by decide, by decide⟩

/-- Successful field extraction needs at least 5 cells. -/
theorem extractRow_length (fmt : String) (row : List (List Char)) (e : Extracted)
    (h : extractRow fmt row = some e) : 5 ≤ row.length := by
  unfold extractRow at h
  split_ifs at h <;> (try cases h) <;> omega

/-- Once a row reaches the key-resolution branch, the key looked up in
the feeder catalog is the BOM-mapped key when present and non-empty,
else the schema default. -/
theorem rowEffect_looked_resolved (fmt : String) (m1u m2u : Option (List Char))
    (bom : Option BomFn) (cf : List Char → Option Feeder) (skip : Bool)
    (row : List (List Char)) (e : Extracted)
    (h0 : row ≠ []) (hE : extractRow fmt row = some e) (h1 : e.ref ≠ [])
    (hm1 : markMatches m1u (pyUpper e.ref) = false)
    (hm2 : markMatches m2u (pyUpper e.ref) = false)
    (hd1f : ¬(m1u = none ∧ (pyUpper e.ref = str "FID01" ∨ pyUpper e.ref = str "FID1")))
    (hd2f : ¬(m2u = none ∧ (pyUpper e.ref = str "FID02" ∨ pyUpper e.ref = str "FID2")))
    (hfid : startswith (pyUpper e.ref) (str "FID") = false) :
    (rowEffect fmt m1u m2u bom cf skip row).looked =
      [match bomGet bom e.ref with
       | some k =>
           if k = [] then
             (if fmt = "positions" then e.ref else e.package ++ [' '] ++ e.value)
           else k
       | none => if fmt = "positions" then e.ref else e.package ++ [' '] ++ e.value] := by
  simp only [rowEffect, h0, hE, h1, hm1, hm2, hd1f, hd2f, hfid, if_false, ite_false,
    Bool.false_eq_true, not_false_eq_true, if_neg]
  rw [apply_ite Effect.looked]
  simp [neutralEffect]

/-- A fiducial row looks nothing up in the feeder catalog. -/
theorem rowEffect_looked_nil_of_fid (fmt : String) (m1u m2u : Option (List Char))
    (bom : Option BomFn) (cf : List Char → Option Feeder) (skip : Bool)
    (row : List (List Char))
    (hfid : startswith (pyUpper (pyStrip (row.getD 0 []))) (str "FID") = true) :
    (rowEffect fmt m1u m2u bom cf skip row).looked = [] := by
  by_cases h0 : row = []
  · simp [rowEffect, h0, neutralEffect]
  · rcases hE : extractRow fmt row with _ | e
    · simp [rowEffect, h0, hE, neutralEffect]
    · rw [← extractRow_ref fmt row e hE] at hfid
      by_cases h1 : e.ref = []
      · simp [rowEffect, h0, hE, h1, neutralEffect]
      · by_cases hm1 : markMatches m1u (pyUpper e.ref) = true
        · simp [rowEffect, h0, hE, h1, hm1, neutralEffect]
        · by_cases hm2 : markMatches m2u (pyUpper e.ref) = true
          · simp [rowEffect, h0, hE, h1, hm1, hm2, neutralEffect]
          · by_cases hd1 : m1u = none ∧ (pyUpper e.ref = str "FID01" ∨ pyUpper e.ref = str "FID1")
            · simp [rowEffect, h0, hE, h1, hm1, hm2, hd1, neutralEffect]
            · by_cases hd2 : m2u = none ∧ (pyUpper e.ref = str "FID02" ∨ pyUpper e.ref = str "FID2")
              · simp [rowEffect, h0, hE, h1, hm1, hm2, hd1, hd2, neutralEffect]
              · simp [rowEffect, h0, hE, h1, hm1, hm2, hd1, hd2, hfid, neutralEffect]

/-- Claim C3 (amended): when the BOM index maps a row's reference to a
NON-EMPTY key, both `gen_machine_data` and the BOM-aware template writer
use that key unconditionally; when the mapped value is the empty string,
`gen_machine_data` falls back to the schema-derived default key and the
template writer adds no key for the row. -/
theorem C3_bom_key_override (fmt : String) (m1u m2u : Option (List Char))
    (bom : BomFn) (cf : List Char → Option Feeder) (skip : Bool) (st : MDState)
    (row : List (List Char)) (e : Extracted) (k : List Char)
    (h0 : row ≠ []) (hE : extractRow fmt row = some e) (h1 : e.ref ≠ [])
    (hm1 : markMatches m1u (pyUpper e.ref) = false)
    (hm2 : markMatches m2u (pyUpper e.ref) = false)
    (hfid : startswith (pyUpper e.ref) (str "FID") = false) :
    (bom e.ref = some k → k ≠ [] →
      (mdStep fmt m1u m2u (some bom) cf skip st row).lookedUp = st.lookedUp ++ [k] ∧
      genComponentsListFromBomStep fmt bom row = some k) ∧
    (bom e.ref = some [] →
      (mdStep fmt m1u m2u (some bom) cf skip st row).lookedUp =
        st.lookedUp ++
          [if fmt = "positions" then e.ref else e.package ++ [' '] ++ e.value] ∧
      genComponentsListFromBomStep fmt bom row = none) := by
  have hd1f : ¬(m1u = none ∧ (pyUpper e.ref = str "FID01" ∨ pyUpper e.ref = str "FID1")) := by
    rintro ⟨-, h | h⟩ <;> rw [h] at hfid <;> exact absurd hfid (by decide)
  have hd2f : ¬(m2u = none ∧ (pyUpper e.ref = str "FID02" ∨ pyUpper e.ref = str "FID2")) := by
    rintro ⟨-, h | h⟩ <;> rw [h] at hfid <;> exact absurd hfid (by decide)
  have hlen := extractRow_length fmt row e hE
  have href := (extractRow_ref fmt row e hE).symm
  have href2 : pyStrip (row[0]?.getD []) = e.ref := by
    simpa [List.getD_eq_getElem?_getD] using href
  constructor
  · intro hbk hk
    constructor
    · rw [mdStep_eq]
      rw [applyEffect]
      rw [rowEffect_looked_resolved fmt m1u m2u (some bom) cf skip row e h0 hE h1 hm1 hm2
        hd1f hd2f hfid]
      simp [bomGet, hbk, hk]
    · by_cases hfk : fmt = "kicad_pos"
      · have h3 : ¬(row.length < 3) := by omega
        simp [genComponentsListFromBomStep, h0, hfk, h3, href, href2, hfid, hbk, hk]
      · by_cases hfp : fmt = "positions"
        · have hl1 : ¬(row.length < 1) := by omega
          simp [genComponentsListFromBomStep, h0, hfk, hfp, hl1, href, href2, h1, hfid, hbk, hk]
        · have hl1 : ¬(row.length < 1) := by omega
          simp [genComponentsListFromBomStep, h0, hfk, hfp, hl1, href, href2, h1, hfid, hbk, hk]
  · intro hbe
    constructor
    · rw [mdStep_eq]
      rw [applyEffect]
      rw [rowEffect_looked_resolved fmt m1u m2u (some bom) cf skip row e h0 hE h1 hm1 hm2
        hd1f hd2f hfid]
      simp [bomGet, hbe]
    · by_cases hfk : fmt = "kicad_pos"
      · have h3 : ¬(row.length < 3) := by omega
        simp [genComponentsListFromBomStep, h0, hfk, h3, href, href2, hfid, hbe]
      · by_cases hfp : fmt = "positions"
        · have hl1 : ¬(row.length < 1) := by omega
          simp [genComponentsListFromBomStep, h0, hfk, hfp, hl1, href, href2, h1, hfid, hbe]
        · have hl1 : ¬(row.length < 1) := by omega
          simp [genComponentsListFromBomStep, h0, hfk, hfp, hl1, href, href2, h1, hfid, hbe]

/-- A BOM index mapping `R1` to the non-empty key `K1`. -/
def bomC3w : BomFn := fun r => if r = str "R1" then some (str "K1") else none

/-- Witness for C3 at concrete inputs. -/
theorem C3_bom_key_override_witness :
    (mdStep "kicad_pos" none none (some bomC3w) (fun _ => none) false initMD
      [str "R1", str "10k", str "0402", str "1", str "2", str "3"]).lookedUp =
      initMD.lookedUp ++ [str "K1"] ∧
    genComponentsListFromBomStep "kicad_pos" bomC3w
      [str "R1", str "10k", str "0402", str "1", str "2", str "3"] = some (str "K1") := by
  exact (C3_bom_key_override "kicad_pos" none none bomC3w (fun _ => none) false initMD
      [str "R1", str "10k", str "0402", str "1", str "2", str "3"]
      ⟨str "R1", str "10k", str "0402", str "1", str "2", str "3"⟩ (str "K1")
      (by decide) (by decide) (by decide) (by decide) (by decide) (by decide)).1
      (by decide) (by decide)

/-- A BOM index mapping `R1` to the EMPTY key. -/
def bomC3 : BomFn := fun r => if r = str "R1" then some [] else none

/-- Claim C3 counterexample: with the BOM mapping `R1` to the empty
string, `gen_machine_data` looks up the schema-derived default key
`"0402 10k"`, not the mapped empty key - it does fall back. -/
theorem C3_empty_bom_key_falls_back :
    bomC3 (str "R1") = some [] ∧
    mdLookedUp (gen_machine_data exFileC2 (fun _ => none) none none (some bomC3) false) =
      [str "0402 10k"] ∧
    str "0402 10k" ≠ [] := by
  exact ⟨by decide, by decide, by decide⟩

/-- Claim C7 (amended): rows whose reference trims to the empty string
are skipped by `gen_machine_data` (the loop state is unchanged), by
`collect_fid_refs`, by both template writers under the Positions schema,
and by the BOM-aware template writer under every non-KicadPos schema.
(The KicadPos branches of the template writers and the Unknown branch of
`gen_components_list` do derive keys from such rows; see the
counterexample.) -/
theorem C7_empty_ref_skipped :
    (∀ (fmt : String) (m1u m2u : Option (List Char)) (bom : Option BomFn)
        (cf : List Char → Option Feeder) (skip : Bool) (st : MDState)
        (row : List (List Char)),
      pyStrip (row.getD 0 []) = [] → mdStep fmt m1u m2u bom cf skip st row = st) ∧
    (∀ (refs : List (List Char)) (row : List (List Char)),
      pyStrip (row.getD 0 []) = [] → collectFidStep refs row = refs) ∧
    (∀ row : List (List Char),
      pyStrip (row.getD 0 []) = [] → genComponentsListStep "positions" row = none) ∧
    (∀ (fmt : String) (b : BomFn) (row : List (List Char)), fmt ≠ "kicad_pos" →
      pyStrip (row.getD 0 []) = [] → genComponentsListFromBomStep fmt b row = none) := by
  refine ⟨?_, ?_, ?_, ?_⟩
  · intro fmt m1u m2u bom cf skip st row h
    by_cases h0 : row = []
    · simp [mdStep, h0]
    · rcases hE : extractRow fmt row with _ | e
      · simp [mdStep, h0, hE]
      · have hr := extractRow_ref fmt row e hE
        have h2 : pyStrip (row[0]?.getD []) = [] := by
          simpa [List.getD_eq_getElem?_getD] using h
        simp [mdStep, h0, hE, hr, h, h2]
  · intro refs row h
    unfold collectFidStep
    split_ifs <;> simp_all
  · intro row h
    unfold genComponentsListStep
    split_ifs <;> simp_all
  · intro fmt b row hfk h
    unfold genComponentsListFromBomStep
    split_ifs <;> simp_all

/-- Witness for C7 at concrete inputs (the reference cell is a blank). -/
theorem C7_empty_ref_skipped_witness :
    mdStep "kicad_pos" none none none (fun _ => none) false initMD
      [str " ", str "x", str "y", str "1", str "2", str "3"] = initMD ∧
    collectFidStep [] [str " "] = [] ∧
    genComponentsListStep "positions" [str " "] = none ∧
    genComponentsListFromBomStep "unknown" (fun _ => none) [str " "] = none := by
  refine ⟨?_, ?_, ?_, ?_⟩
  · exact C7_empty_ref_skipped.1 "kicad_pos" none none none (fun _ => none) false initMD
      [str " ", str "x", str "y", str "1", str "2", str "3"] (by decide)
  · exact C7_empty_ref_skipped.2.1 [] [str " "] (by decide)
  · exact C7_empty_ref_skipped.2.2.1 [str " "] (by decide)
  · exact C7_empty_ref_skipped.2.2.2 "unknown" (fun _ => none) [str " "] (by decide)
      (by decide)

/-- Claim C7 counterexample: under the KicadPos schema
`gen_components_list` derives the key `"0402 10k"` from a row whose
reference cell trims to the empty string. -/
theorem C7_empty_ref_key_derived :
    gen_components_list [exHeaderK, [str "", str "10k", str "0402"]] = [str "0402 10k"] ∧
    pyStrip (str "") = [] := by
  exact ⟨by decide, by decide⟩

/-- The component key one data row contributes to the feeders template,
under the `Run` dispatch: the BOM-aware step when a BOM index was read,
the plain step otherwise. -/
def templateStep (fmt : String) (bom : Option BomFn) (row : List (List Char)) :
    Option (List Char) :=
  match bom with
  | some b => genComponentsListFromBomStep fmt b row
  | none => genComponentsListStep fmt row

theorem mem_templateComponents (header : List (List Char))
    (rows : List (List (List Char))) (bom : Option BomFn) (k : List Char) :
    k ∈ templateComponents (header :: rows) bom ↔
      k ∈ rows.filterMap (templateStep (_detect_pos_format header) bom) := by
  cases bom with
  | none =>
      simp [templateComponents, gen_components_list, mem_sortLe, List.mem_dedup,
        templateStep]
  | some b =>
      simp [templateComponents, gen_components_list_from_bom_and_pos, mem_sortLe,
        List.mem_dedup, templateStep]

/-- Per-row agreement between the key the machine-data loop looks up and
the key the template writer collects, for KicadPos/Positions rows with
enough columns, a non-empty reference and no empty BOM-mapped key. -/
theorem row_key_agree (fmt : String) (bom : Option BomFn)
    (cf : List Char → Option Feeder) (skip : Bool) (row : List (List Char))
    (hfmt : fmt = "kicad_pos" ∨ fmt = "positions")
    (hlen : row ≠ [] → (if fmt = "positions" then 5 else 6) ≤ row.length)
    (href : row ≠ [] → pyStrip (row.getD 0 []) ≠ [])
    (hbom : row ≠ [] → bomGet bom (pyStrip (row.getD 0 [])) ≠ some []) :
    (rowEffect fmt none none bom cf skip row).looked =
      (templateStep fmt bom row).toList := by
  by_cases h0 : row = []
  · subst h0
    rcases hfmt with hfk | hfp <;> subst_vars <;>
      cases bom <;>
        simp [rowEffect, neutralEffect, templateStep, genComponentsListStep,
          genComponentsListFromBomStep]
  · rcases hfmt with hfk | hfp
    · subst hfk
      have hlen6 : 6 ≤ row.length := by
        have h' := hlen h0
        rw [if_neg (by decide)] at h'
        exact h'
      have hE : extractRow "kicad_pos" row = some ⟨pyStrip (row.getD 0 []),
          pyStrip (row.getD 1 []), pyStrip (row.getD 2 []), pyStrip (row.getD 3 []),
          pyStrip (row.getD 4 []), pyStrip (row.getD 5 [])⟩ := by
        unfold extractRow
        rw [if_pos rfl, if_neg (by omega)]
      by_cases hfid : startswith (pyUpper (pyStrip (row.getD 0 []))) (str "FID") = true
      · rw [rowEffect_looked_nil_of_fid "kicad_pos" none none bom cf skip row hfid]
        cases bom with
        | none => simp [templateStep, genComponentsListStep_none_of_fid "kicad_pos" row hfid]
        | some b =>
            simp [templateStep, genComponentsListFromBomStep_none_of_fid "kicad_pos" b row hfid]
      · have hfidf : startswith (pyUpper (pyStrip (row.getD 0 []))) (str "FID") = false := by
          simpa [Bool.not_eq_true] using hfid
        have hd1f : ¬((none : Option (List Char)) = none ∧
            (pyUpper (pyStrip (row.getD 0 [])) = str "FID01" ∨
              pyUpper (pyStrip (row.getD 0 [])) = str "FID1")) := by
          rintro ⟨-, h | h⟩ <;> rw [h] at hfidf <;> exact absurd hfidf (by decide)
        have hd2f : ¬((none : Option (List Char)) = none ∧
            (pyUpper (pyStrip (row.getD 0 [])) = str "FID02" ∨
              pyUpper (pyStrip (row.getD 0 [])) = str "FID2")) := by
          rintro ⟨-, h | h⟩ <;> rw [h] at hfidf <;> exact absurd hfidf (by decide)
        have hfidf2 : startswith (pyUpper (pyStrip (row[0]?.getD []))) (str "FID") = false := by
          simpa [List.getD_eq_getElem?_getD] using hfidf
        have hlook := rowEffect_looked_resolved "kicad_pos" none none bom cf skip row
          ⟨pyStrip (row.getD 0 []), pyStrip (row.getD 1 []), pyStrip (row.getD 2 []),
            pyStrip (row.getD 3 []), pyStrip (row.getD 4 []), pyStrip (row.getD 5 [])⟩
          h0 hE (href h0) rfl rfl hd1f hd2f hfidf
        rw [hlook]
        have hne : ¬(("kicad_pos" : String) = "positions") := by decide
        have h3 : ¬(row.length < 3) := by omega
        cases bom with
        | none =>
            simp [templateStep, genComponentsListStep, bomGet, h0, hfidf, hfidf2, hne,
              h3]
        | some b =>
            have hbom' := hbom h0
            cases hb : b (pyStrip (row.getD 0 [])) with
            | none =>
                have hb2 : b (pyStrip (row[0]?.getD [])) = none := by
                  simpa [List.getD_eq_getElem?_getD] using hb
                simp [templateStep, genComponentsListFromBomStep, bomGet, h0, hfidf,
                  hfidf2, hb, hb2, hne, h3]
            | some k0 =>
                have hb2 : b (pyStrip (row[0]?.getD [])) = some k0 := by
                  simpa [List.getD_eq_getElem?_getD] using hb
                have hk0 : k0 ≠ [] := by
                  intro hk0e
                  subst hk0e
                  exact hbom' (by simpa [bomGet] using hb)
                simp [templateStep, genComponentsListFromBomStep, bomGet, h0, hfidf,
                  hfidf2, hb, hb2, hk0, hne, h3]
    · subst hfp
      have hlen5 : 5 ≤ row.length := by
        have h' := hlen h0
        rw [if_pos rfl] at h'
        exact h'
      have hE : extractRow "positions" row = some ⟨pyStrip (row.getD 0 []), [], [],
          pyStrip (row.getD 1 []), pyStrip (row.getD 2 []), pyStrip (row.getD 3 [])⟩ := by
        unfold extractRow
        rw [if_neg (by decide), if_pos rfl, if_neg (by omega)]
      by_cases hfid : startswith (pyUpper (pyStrip (row.getD 0 []))) (str "FID") = true
      · rw [rowEffect_looked_nil_of_fid "positions" none none bom cf skip row hfid]
        cases bom with
        | none => simp [templateStep, genComponentsListStep_none_of_fid "positions" row hfid]
        | some b =>
            simp [templateStep, genComponentsListFromBomStep_none_of_fid "positions" b row hfid]
      · have hfidf : startswith (pyUpper (pyStrip (row.getD 0 []))) (str "FID") = false := by
          simpa [Bool.not_eq_true] using hfid
        have hd1f : ¬((none : Option (List Char)) = none ∧
            (pyUpper (pyStrip (row.getD 0 [])) = str "FID01" ∨
              pyUpper (pyStrip (row.getD 0 [])) = str "FID1")) := by
          rintro ⟨-, h | h⟩ <;> rw [h] at hfidf <;> exact absurd hfidf (by decide)
        have hd2f : ¬((none : Option (List Char)) = none ∧
            (pyUpper (pyStrip (row.getD 0 [])) = str "FID02" ∨
              pyUpper (pyStrip (row.getD 0 [])) = str "FID2")) := by
          rintro ⟨-, h | h⟩ <;> rw [h] at hfidf <;> exact absurd hfidf (by decide)
        have hfidf2 : startswith (pyUpper (pyStrip (row[0]?.getD []))) (str "FID") = false := by
          simpa [List.getD_eq_getElem?_getD] using hfidf
        have hlook := rowEffect_looked_resolved "positions" none none bom cf skip row
          ⟨pyStrip (row.getD 0 []), [], [], pyStrip (row.getD 1 []),
            pyStrip (row.getD 2 []), pyStrip (row.getD 3 [])⟩
          h0 hE (href h0) rfl rfl hd1f hd2f hfidf
        rw [hlook]
        have hrefp := href h0
        have hrefp2 : ¬(pyStrip (row[0]?.getD []) = []) := by
          simpa [List.getD_eq_getElem?_getD] using hrefp
        have h3 : ¬(row.length < 1) := by omega
        cases bom with
        | none =>
            simp [templateStep, genComponentsListStep, bomGet, h0, hfidf, hfidf2,
              hrefp, hrefp2, h3]
        | some b =>
            have hbom' := hbom h0
            cases hb : b (pyStrip (row.getD 0 [])) with
            | none =>
                have hb2 : b (pyStrip (row[0]?.getD [])) = none := by
                  simpa [List.getD_eq_getElem?_getD] using hb
                simp [templateStep, genComponentsListFromBomStep, bomGet, h0, hfidf,
                  hfidf2, hrefp, hrefp2, hb, hb2, h3]
            | some k0 =>
                have hb2 : b (pyStrip (row[0]?.getD [])) = some k0 := by
                  simpa [List.getD_eq_getElem?_getD] using hb
                have hk0 : k0 ≠ [] := by
                  intro hk0e
                  subst hk0e
                  exact hbom' (by simpa [bomGet] using hb)
                simp [templateStep, genComponentsListFromBomStep, bomGet, h0, hfidf,
                  hfidf2, hrefp, hrefp2, hb, hb2, hk0, h3]

/-- Claim C1 (amended): for a placement file whose header is detected as
KicadPos or Positions, whose data rows all have the full column count
`gen_machine_data` requires (6 for KicadPos, 5 for Positions) and a
non-empty trimmed reference, and whose BOM index (when supplied) maps no
reference of the file to the empty string, the set of component keys
emitted by the feeder-template path equals the set of keys
`gen_machine_data` (without mark overrides) looks up in the feeder
catalog.  (Outside these conditions the sets can differ; see the
counterexample.) -/
theorem C1_template_machine_key_sets (header : List (List Char))
    (rows : List (List (List Char))) (bom : Option BomFn)
    (cf : List Char → Option Feeder) (skip : Bool)
    (hfmt : _detect_pos_format header = "kicad_pos" ∨
      _detect_pos_format header = "positions")
    (hlen : ∀ row ∈ rows, row ≠ [] →
      (if _detect_pos_format header = "positions" then 5 else 6) ≤ row.length)
    (href : ∀ row ∈ rows, row ≠ [] → pyStrip (row.getD 0 []) ≠ [])
    (hbom : ∀ row ∈ rows, row ≠ [] →
      bomGet bom (pyStrip (row.getD 0 [])) ≠ some []) :
    ∀ k : List Char, k ∈ templateComponents (header :: rows) bom ↔
      k ∈ mdLookedUp (gen_machine_data (header :: rows) cf none none bom skip) := by
  intro k
  rw [mem_templateComponents]
  simp only [gen_machine_data, mdLookedUp, Option.map_some', Option.getD_some, optMarkUpper]
  rw [foldl_lookedUp]
  simp only [initMD, List.nil_append]
  rw [mem_concatMap, List.mem_filterMap]
  constructor
  · rintro ⟨row, hrow, hstep⟩
    refine ⟨row, hrow, ?_⟩
    rw [row_key_agree (_detect_pos_format header) bom cf skip row hfmt
      (hlen row hrow) (href row hrow) (hbom row hrow)]
    simp [hstep]
  · rintro ⟨row, hrow, hk⟩
    refine ⟨row, hrow, ?_⟩
    rw [row_key_agree (_detect_pos_format header) bom cf skip row hfmt
      (hlen row hrow) (href row hrow) (hbom row hrow)] at hk
    simpa using hk

/-- Witness for C1 at concrete inputs. -/
theorem C1_template_machine_key_sets_witness :
    str "0402 10k" ∈ templateComponents
      (exHeaderK :: [[str "R1", str "10k", str "0402", str "1", str "2", str "3"]]) none ↔
    str "0402 10k" ∈ mdLookedUp (gen_machine_data
      (exHeaderK :: [[str "R1", str "10k", str "0402", str "1", str "2", str "3"]])
      (fun _ => none) none none none false) := by
  exact C1_template_machine_key_sets exHeaderK
    [[str "R1", str "10k", str "0402", str "1", str "2", str "3"]] none
    (fun _ => none) false (by decide) (by decide) (by decide) (by decide)
    (str "0402 10k")

/-- Claim C1 counterexample: a KicadPos row with only 3 cells produces
the template key `"0402 10k"` but is skipped by `gen_machine_data`
(which requires 6 cells), so no key at all is looked up: the two key
sets differ. -/
theorem C1_key_sets_differ_on_short_row :
    str "0402 10k" ∈ templateComponents [exHeaderK, [str "R1", str "10k", str "0402"]] none ∧
    mdLookedUp (gen_machine_data [exHeaderK, [str "R1", str "10k", str "0402"]]
      (fun _ => none) none none none false) = [] := by
  exact ⟨by decide, by decide⟩
